import Mathlib

/-!
Shallow embedding of the simulation logic of
`react-native-earl-gamepad-example` (`components/GameView.tsx` and the main
screen's game loop), together with theorems settling the specification
claims about it.

The per-frame simulation step and its arithmetic helpers (`clamp`,
`distance`, `getInputVector`, `spawnTarget`, `randomPoint`,
`randomBetween`) are translated directly from the source.  JavaScript
numbers are modelled as real numbers; `Math.random()` draws are modelled
as an explicit stream of pairs in `[0, 1)` passed to the step, and the
gamepad's pressed-button set as a `Finset` over the button vocabulary.
-/

namespace EarlGamepad

/-- The logical button vocabulary of the gamepad bridge
(`GamepadButtonName` in the source). -/
inductive Btn where
  | a | b | x | y
  | lb | rb
  | lt | rt
  | back | start
  | ls | rs
  | dpadUp | dpadDown | dpadLeft | dpadRight
  | home
deriving DecidableEq, Repr

/-- The axis snapshot consumed by the game logic: entries may be absent
(the source reads `axes.leftX ?? 0`). -/
structure Axes where
  leftX : Option ℝ
  leftY : Option ℝ
  rightX : Option ℝ
  rightY : Option ℝ

/-- A 2-D point `{ x, y }`. -/
structure Point where
  x : ℝ
  y : ℝ

/-- The source's `PlayerState`: position, rotation in degrees,
uniform scale. -/
structure PlayerState where
  x : ℝ
  y : ℝ
  rotation : ℝ
  scale : ℝ

/-- The mutable game state touched by one frame: player, target, score. -/
structure GameState where
  player : PlayerState
  target : Point
  score : ℕ

/-- Source constant `PLAYER_SIZE = 44`. -/
noncomputable def PLAYER_SIZE : ℝ := 44

/-- Source constant `TARGET_SIZE = 26`. -/
noncomputable def TARGET_SIZE : ℝ := 26

/-- Source constant `BASE_SPEED = 240` (units per second). -/
noncomputable def BASE_SPEED : ℝ := 240

/-- Source helper `clamp(value, min, max) = Math.min(max, Math.max(min, value))`. -/
noncomputable def clamp (value mn mx : ℝ) : ℝ := min mx (max mn value)

/-- The source's `Math.hypot(a, b)`: the Euclidean norm of the pair. -/
noncomputable def hypot (a b : ℝ) : ℝ := Real.sqrt (a ^ 2 + b ^ 2)

/-- Source helper `distance(a, b) = Math.hypot(a.x - b.x, a.y - b.y)`. -/
noncomputable def distance (a b : Point) : ℝ := hypot (a.x - b.x) (a.y - b.y)

/-- Source helper `getInputVector(axes, pressed)`: stick plus d-pad per axis, each axis
clamped to `[-1, 1]`, both components divided by `max(1, hypot(x, y))`. -/
noncomputable def getInputVector (axes : Axes) (pressed : Finset Btn) :
    Point :=
  let leftX := axes.leftX.getD 0
  let leftY := axes.leftY.getD 0
  let x := clamp
    (leftX + (if Btn.dpadRight ∈ pressed then 1 else 0)
      - (if Btn.dpadLeft ∈ pressed then 1 else 0)) (-1) 1
  let y := clamp
    (leftY + (if Btn.dpadDown ∈ pressed then 1 else 0)
      - (if Btn.dpadUp ∈ pressed then 1 else 0)) (-1) 1
  let magnitude := max 1 (hypot x y)
  ⟨x / magnitude, y / magnitude⟩

/-- Source helper `randomBetween(min, max)` with the `Math.random()` draw `r` made an
explicit argument: `r * (max - min) + min`. -/
noncomputable def randomBetween (mn mx r : ℝ) : ℝ := r * (mx - mn) + mn

/-- Source helper `randomPoint(boardSize)` with the two `Math.random()` draws made an
explicit pair argument; margin is `PLAYER_SIZE`. -/
noncomputable def randomPoint (boardSize : ℝ) (r : ℝ × ℝ) : Point :=
  ⟨randomBetween PLAYER_SIZE (boardSize - PLAYER_SIZE) r.1,
   randomBetween PLAYER_SIZE (boardSize - PLAYER_SIZE) r.2⟩

/-- The retry loop of `spawnTarget`: `fuel` iterations remain and `idx` is
the index of the current candidate in the sample stream.  With `fuel = 0`
the loop has ended and the (unchecked) current candidate is returned. -/
noncomputable def spawnTargetGo (boardSize : ℝ) (player : Point)
    (rnd : ℕ → ℝ × ℝ) : ℕ → ℕ → Point
  | 0, idx => randomPoint boardSize (rnd idx)
  | fuel + 1, idx =>
    let candidate := randomPoint boardSize (rnd idx)
    if distance candidate player > 100 then candidate
    else spawnTargetGo boardSize player rnd fuel (idx + 1)

/-- Source helper `spawnTarget(boardSize, player)`: draw a candidate, retry for 20 loop
iterations looking for one farther than 100 from the player, candidates
drawn from the stream `rnd` of `Math.random()` pairs. -/
noncomputable def spawnTarget (boardSize : ℝ) (player : Point)
    (rnd : ℕ → ℝ × ℝ) : Point :=
  spawnTargetGo boardSize player rnd 20 0

/-- The speed chosen by the step: `x` (turbo) multiplies `BASE_SPEED`
by 2.5. -/
noncomputable def currentSpeed (pressed : Finset Btn) : ℝ :=
  if Btn.x ∈ pressed then BASE_SPEED * 2.5 else BASE_SPEED

/-- The elapsed time `dt` as the step computes it from the current and previous frame
timestamps (milliseconds): `Math.min((timestamp - last) / 1000, 0.05)`. -/
noncomputable def dtOf (timestamp last : ℝ) : ℝ := min ((timestamp - last) / 1000) 0.05

/-- The player-state part of the frame step: movement from
`getInputVector` scaled by speed and `dt` and clamped to the board inset
by half the player size; rotation driven by `lb`/`rb`; scale driven by
`lt`/`rt`, clamped to `[0.5, 2.5]`. -/
noncomputable def nextPlayer (boardSize : ℝ) (axes : Axes)
    (pressed : Finset Btn) (dt : ℝ) (prev : PlayerState) : PlayerState :=
  let input := getInputVector axes pressed
  let dx := input.x * currentSpeed pressed * dt
  let dy := input.y * currentSpeed pressed * dt
  let rot1 := if Btn.lb ∈ pressed then prev.rotation - 200 * dt
    else prev.rotation
  let newRotation := if Btn.rb ∈ pressed then rot1 + 200 * dt else rot1
  let sc1 := if Btn.lt ∈ pressed then max 0.5 (prev.scale - 2 * dt)
    else prev.scale
  let newScale := if Btn.rt ∈ pressed then min 2.5 (sc1 + 2 * dt) else sc1
  ⟨clamp (prev.x + dx) (PLAYER_SIZE / 2) (boardSize - PLAYER_SIZE / 2),
   clamp (prev.y + dy) (PLAYER_SIZE / 2) (boardSize - PLAYER_SIZE / 2),
   newRotation, newScale⟩

/-- One frame of the game loop (the `setPlayer` updater plus the collision
branch): compute the next player state, then if the distance from the next
position to the target is at most
`(PLAYER_SIZE * next.scale + TARGET_SIZE) / 2`, respawn the target and
increment the score. -/
noncomputable def step (boardSize : ℝ) (rnd : ℕ → ℝ × ℝ) (axes : Axes)
    (pressed : Finset Btn) (dt : ℝ) (s : GameState) : GameState :=
  let next := nextPlayer boardSize axes pressed dt s.player
  let dist := distance ⟨next.x, next.y⟩ s.target
  let effectivePlayerSize := PLAYER_SIZE * next.scale
  if dist ≤ (effectivePlayerSize + TARGET_SIZE) / 2 then
    ⟨next, spawnTarget boardSize ⟨next.x, next.y⟩ rnd, s.score + 1⟩
  else
    ⟨next, s.target, s.score⟩

/-- The per-frame inputs of one invocation of the step. -/
structure FrameInput where
  axes : Axes
  pressed : Finset Btn
  dt : ℝ
  rnd : ℕ → ℝ × ℝ

/-- Iterating the step over a list of frame inputs. -/
noncomputable def run (boardSize : ℝ) : List FrameInput → GameState → GameState
  | [], s => s
  | f :: fs, s => run boardSize fs (step boardSize f.rnd f.axes f.pressed f.dt s)

/-- The bounds claimed for the player position: board inset by half the
player's visual size on each side. -/
def InBounds (boardSize : ℝ) (p : PlayerState) : Prop :=
  PLAYER_SIZE / 2 ≤ p.x ∧ p.x ≤ boardSize - PLAYER_SIZE / 2 ∧
  PLAYER_SIZE / 2 ≤ p.y ∧ p.y ≤ boardSize - PLAYER_SIZE / 2

/-- The movement-vector computation as the specification words it:
per-axis sum of the stick axis value plus `+1` for the positive d-pad
direction and `-1` for the negative one, each axis clamped to `[-1, 1]`,
both components divided by `max(1, hypot(x, y))`. -/
noncomputable def specInputVector (axes : Axes) (pressed : Finset Btn) :
    Point :=
  let sx := axes.leftX.getD 0 + (if Btn.dpadRight ∈ pressed then 1 else 0)
    + (if Btn.dpadLeft ∈ pressed then -1 else 0)
  let sy := axes.leftY.getD 0 + (if Btn.dpadDown ∈ pressed then 1 else 0)
    + (if Btn.dpadUp ∈ pressed then -1 else 0)
  let cx := max (-1) (min 1 sx)
  let cy := max (-1) (min 1 sy)
  let m := max 1 (Real.sqrt (cx ^ 2 + cy ^ 2))
  ⟨cx / m, cy / m⟩

-- ## Helper lemmas

lemma clamp_le (value mn mx : ℝ) : clamp value mn mx ≤ mx :=
  min_le_left _ _

lemma le_clamp (value : ℝ) {mn mx : ℝ} (h : mn ≤ mx) :
    mn ≤ clamp value mn mx :=
  le_min h (le_max_left _ _)

lemma abs_clamp_le_one (value : ℝ) : |clamp value (-1) 1| ≤ 1 :=
  abs_le.mpr ⟨le_clamp value (by norm_num), clamp_le value (-1) 1⟩

lemma hypot_nonneg (a b : ℝ) : 0 ≤ hypot a b := Real.sqrt_nonneg _

lemma step_player (boardSize : ℝ) (rnd : ℕ → ℝ × ℝ) (axes : Axes)
    (pressed : Finset Btn) (dt : ℝ) (s : GameState) :
    (step boardSize rnd axes pressed dt s).player =
      nextPlayer boardSize axes pressed dt s.player := by
  unfold step
  dsimp only
  split <;> rfl

lemma nextPlayer_in_bounds (boardSize : ℝ) (axes : Axes)
    (pressed : Finset Btn) (dt : ℝ) (prev : PlayerState)
    (hB : PLAYER_SIZE ≤ boardSize) :
    InBounds boardSize (nextPlayer boardSize axes pressed dt prev) := by
  have h : PLAYER_SIZE / 2 ≤ boardSize - PLAYER_SIZE / 2 := by linarith
  exact ⟨le_clamp _ h, clamp_le _ _ _, le_clamp _ h, clamp_le _ _ _⟩

-- ## C1

/-- C1: every simulation step clamps the produced player position into
`[PLAYER_SIZE/2, boardSize - PLAYER_SIZE/2]` on both axes, for any
previous state, input, and elapsed time; consequently the position is
within those bounds after any number of steps. -/
theorem step_position_in_bounds (boardSize : ℝ) (rnd : ℕ → ℝ × ℝ)
    (axes : Axes) (pressed : Finset Btn) (dt : ℝ) (s : GameState)
    (hB : PLAYER_SIZE ≤ boardSize) :
    InBounds boardSize (step boardSize rnd axes pressed dt s).player ∧
    ∀ (f : FrameInput) (l : List FrameInput) (s₀ : GameState),
      InBounds boardSize (run boardSize (f :: l) s₀).player := by
  constructor
  · rw [step_player]
    exact nextPlayer_in_bounds boardSize axes pressed dt s.player hB
  · intro f l
    induction l generalizing f with
    | nil =>
      intro s₀
      show InBounds boardSize
        (step boardSize f.rnd f.axes f.pressed f.dt s₀).player
      rw [step_player]
      exact nextPlayer_in_bounds _ _ _ _ _ hB
    | cons g l ih =>
      intro s₀
      exact ih g (step boardSize f.rnd f.axes f.pressed f.dt s₀)

/-- Witness for C1 at a concrete board size, input and state. -/
theorem step_position_in_bounds_witness :
    PLAYER_SIZE ≤ (260 : ℝ) ∧
    InBounds 260 (step 260 (fun _ => (0, 0)) ⟨none, none, none, none⟩ ∅ 0
      ⟨⟨130, 130, 0, 1⟩, ⟨44, 44⟩, 0⟩).player :=
  ⟨by norm_num [PLAYER_SIZE],
   (step_position_in_bounds 260 (fun _ => (0, 0)) ⟨none, none, none, none⟩
      ∅ 0 ⟨⟨130, 130, 0, 1⟩, ⟨44, 44⟩, 0⟩
      (by norm_num [PLAYER_SIZE])).1⟩

-- ## C2

/-- C2: for every axis snapshot and pressed-button set, the movement
vector returned by `getInputVector` has Euclidean magnitude at most 1. -/
theorem inputVector_magnitude_le_one (axes : Axes) (pressed : Finset Btn) :
    hypot (getInputVector axes pressed).x (getInputVector axes pressed).y
      ≤ 1 := by
  unfold getInputVector
  set x := clamp
    (axes.leftX.getD 0 + (if Btn.dpadRight ∈ pressed then 1 else 0)
      - (if Btn.dpadLeft ∈ pressed then 1 else 0)) (-1) 1 with hx
  set y := clamp
    (axes.leftY.getD 0 + (if Btn.dpadDown ∈ pressed then 1 else 0)
      - (if Btn.dpadUp ∈ pressed then 1 else 0)) (-1) 1 with hy
  set m := max 1 (hypot x y) with hm
  have hm1 : (1 : ℝ) ≤ m := le_max_left _ _
  have hm0 : (0 : ℝ) < m := lt_of_lt_of_le one_pos hm1
  show hypot (x / m) (y / m) ≤ 1
  have hsum : (x / m) ^ 2 + (y / m) ^ 2 = (x ^ 2 + y ^ 2) / m ^ 2 := by
    field_simp
  unfold hypot
  rw [hsum]
  rw [Real.sqrt_le_iff]
  refine ⟨zero_le_one, ?_⟩
  rw [one_pow, div_le_one (by positivity)]
  have hle : Real.sqrt (x ^ 2 + y ^ 2) ≤ m := le_max_right _ _
  calc x ^ 2 + y ^ 2 = Real.sqrt (x ^ 2 + y ^ 2) ^ 2 :=
        (Real.sq_sqrt (by positivity)).symm
    _ ≤ m ^ 2 := by
        have := Real.sqrt_nonneg (x ^ 2 + y ^ 2)
        nlinarith

-- ## C3

lemma clamp_eq_max_min (v lo hi : ℝ) (h : lo ≤ hi) :
    clamp v lo hi = max lo (min hi v) := by
  rw [clamp, max_min_distrib_left, max_eq_right h]

/-- C3: `getInputVector` computes exactly the specification's formula:
stick axis plus `±1` d-pad contributions per axis, clamped to `[-1, 1]`,
then divided by `max(1, hypot(x, y))`. -/
theorem getInputVector_eq_spec (axes : Axes) (pressed : Finset Btn) :
    getInputVector axes pressed = specInputVector axes pressed := by
  unfold getInputVector specInputVector
  have ex : ∀ (a : ℝ) (p q : Prop) [Decidable p] [Decidable q],
      a + (if p then (1 : ℝ) else 0) - (if q then (1 : ℝ) else 0) =
      a + (if p then (1 : ℝ) else 0) + (if q then (-1 : ℝ) else 0) := by
    intro a p q _ _
    by_cases hq : q <;> simp [hq, sub_eq_add_neg]
  dsimp only
  simp only [ex _ (Btn.dpadRight ∈ pressed) (Btn.dpadLeft ∈ pressed),
    ex _ (Btn.dpadDown ∈ pressed) (Btn.dpadUp ∈ pressed),
    clamp_eq_max_min _ _ _ (by norm_num : (-1 : ℝ) ≤ 1), hypot]

-- ## C4

/-- C4: a step detects a collision — increments the score — exactly when
the Euclidean distance from the next player position to the current target
is at most `(PLAYER_SIZE * next.scale + TARGET_SIZE) / 2`; the boundary is
inclusive since the comparison is `≤`. -/
theorem collision_iff_distance_le (boardSize : ℝ) (rnd : ℕ → ℝ × ℝ)
    (axes : Axes) (pressed : Finset Btn) (dt : ℝ) (s : GameState) :
    (step boardSize rnd axes pressed dt s).score = s.score + 1 ↔
    distance ⟨(nextPlayer boardSize axes pressed dt s.player).x,
        (nextPlayer boardSize axes pressed dt s.player).y⟩ s.target ≤
      (PLAYER_SIZE * (nextPlayer boardSize axes pressed dt s.player).scale
        + TARGET_SIZE) / 2 := by
  unfold step
  dsimp only
  split
  · rename_i h
    simpa using h
  · rename_i h
    simp only [h, iff_false]
    omega

-- ## C6

lemma score_le_step (boardSize : ℝ) (rnd : ℕ → ℝ × ℝ) (axes : Axes)
    (pressed : Finset Btn) (dt : ℝ) (s : GameState) :
    s.score ≤ (step boardSize rnd axes pressed dt s).score := by
  unfold step
  dsimp only
  split
  · exact Nat.le_succ _
  · exact le_refl _

lemma score_le_run (boardSize : ℝ) :
    ∀ (l : List FrameInput) (s₀ : GameState),
      s₀.score ≤ (run boardSize l s₀).score := by
  intro l
  induction l with
  | nil =>
    intro s₀
    exact le_refl _
  | cons f fs ih =>
    intro s₀
    simp only [run]
    exact le_trans (score_le_step boardSize f.rnd f.axes f.pressed f.dt s₀)
      (ih _)

/-- C6: each step increments the score by exactly 1 when the collision
condition holds and leaves it unchanged otherwise, so the score never
grows by more than 1 per frame and is non-decreasing over any sequence of
steps. -/
theorem score_increment_exact (boardSize : ℝ) (rnd : ℕ → ℝ × ℝ)
    (axes : Axes) (pressed : Finset Btn) (dt : ℝ) (s : GameState) :
    ((step boardSize rnd axes pressed dt s).score =
      if distance ⟨(nextPlayer boardSize axes pressed dt s.player).x,
            (nextPlayer boardSize axes pressed dt s.player).y⟩ s.target ≤
          (PLAYER_SIZE * (nextPlayer boardSize axes pressed dt s.player).scale
            + TARGET_SIZE) / 2
        then s.score + 1 else s.score) ∧
    ∀ (l : List FrameInput) (s₀ : GameState),
      s₀.score ≤ (run boardSize l s₀).score := by
  refine ⟨?_, score_le_run boardSize⟩
  unfold step
  dsimp only
  split <;> rename_i h <;> simp [h]

-- ## C7

lemma nextPlayer_scale (boardSize : ℝ) (axes : Axes) (pressed : Finset Btn)
    (dt : ℝ) (prev : PlayerState) :
    (nextPlayer boardSize axes pressed dt prev).scale =
      if Btn.rt ∈ pressed then
        min 2.5 ((if Btn.lt ∈ pressed then max 0.5 (prev.scale - 2 * dt)
          else prev.scale) + 2 * dt)
      else if Btn.lt ∈ pressed then max 0.5 (prev.scale - 2 * dt)
      else prev.scale := by
  unfold nextPlayer
  dsimp only

lemma scale_step_mem (boardSize : ℝ) (axes : Axes) (pressed : Finset Btn)
    (dt : ℝ) (prev : PlayerState) (hdt : 0 ≤ dt) (h1 : 0.5 ≤ prev.scale)
    (h2 : prev.scale ≤ 2.5) :
    0.5 ≤ (nextPlayer boardSize axes pressed dt prev).scale ∧
    (nextPlayer boardSize axes pressed dt prev).scale ≤ 2.5 := by
  have hs1 : 0.5 ≤ (if Btn.lt ∈ pressed then max 0.5 (prev.scale - 2 * dt)
      else prev.scale) ∧
      (if Btn.lt ∈ pressed then max 0.5 (prev.scale - 2 * dt)
      else prev.scale) ≤ 2.5 := by
    split
    · exact ⟨le_max_left _ _, max_le (by norm_num) (by linarith)⟩
    · exact ⟨h1, h2⟩
  rw [nextPlayer_scale]
  split
  · exact ⟨le_min (by norm_num) (by linarith [hs1.1]), min_le_left _ _⟩
  · exact hs1

lemma scale_run_mem (boardSize : ℝ) :
    ∀ (l : List FrameInput) (s₀ : GameState), (∀ f ∈ l, 0 ≤ f.dt) →
      0.5 ≤ s₀.player.scale → s₀.player.scale ≤ 2.5 →
      0.5 ≤ (run boardSize l s₀).player.scale ∧
      (run boardSize l s₀).player.scale ≤ 2.5 := by
  intro l
  induction l with
  | nil =>
    intro s₀ _ h1 h2
    exact ⟨h1, h2⟩
  | cons f fs ih =>
    intro s₀ hdt h1 h2
    simp only [run]
    have hstep := scale_step_mem boardSize f.axes f.pressed f.dt s₀.player
      (hdt f (by simp)) h1 h2
    have hp : 0.5 ≤ (step boardSize f.rnd f.axes f.pressed f.dt s₀).player.scale ∧
        (step boardSize f.rnd f.axes f.pressed f.dt s₀).player.scale ≤ 2.5 := by
      rw [step_player]
      exact hstep
    exact ih _ (fun g hg => hdt g (by simp [hg])) hp.1 hp.2

/-- C7: `lt` shrinks the scale at rate 2 per second but never below 0.5,
`rt` grows it at rate 2 per second but never above 2.5, with neither held
the scale is unchanged, one step preserves membership of the scale in
`[0.5, 2.5]` whenever the elapsed time is nonnegative, and hence any
sequence of steps with nonnegative elapsed times keeps the scale in
`[0.5, 2.5]`. -/
theorem scale_rate_and_invariant (boardSize : ℝ) (axes : Axes)
    (pressed : Finset Btn) (dt : ℝ) (prev : PlayerState) :
    (Btn.lt ∉ pressed → Btn.rt ∉ pressed →
      (nextPlayer boardSize axes pressed dt prev).scale = prev.scale) ∧
    (Btn.lt ∈ pressed → Btn.rt ∉ pressed →
      (nextPlayer boardSize axes pressed dt prev).scale =
        max 0.5 (prev.scale - 2 * dt)) ∧
    (Btn.lt ∉ pressed → Btn.rt ∈ pressed →
      (nextPlayer boardSize axes pressed dt prev).scale =
        min 2.5 (prev.scale + 2 * dt)) ∧
    (0 ≤ dt → 0.5 ≤ prev.scale → prev.scale ≤ 2.5 →
      0.5 ≤ (nextPlayer boardSize axes pressed dt prev).scale ∧
      (nextPlayer boardSize axes pressed dt prev).scale ≤ 2.5) ∧
    ∀ (l : List FrameInput) (s₀ : GameState), (∀ f ∈ l, 0 ≤ f.dt) →
      0.5 ≤ s₀.player.scale → s₀.player.scale ≤ 2.5 →
      0.5 ≤ (run boardSize l s₀).player.scale ∧
      (run boardSize l s₀).player.scale ≤ 2.5 := by
  refine ⟨?_, ?_, ?_, scale_step_mem boardSize axes pressed dt prev,
    scale_run_mem boardSize⟩
  · intro hlt hrt
    rw [nextPlayer_scale]
    simp [hlt, hrt]
  · intro hlt hrt
    rw [nextPlayer_scale]
    simp [hlt, hrt]
  · intro hlt hrt
    rw [nextPlayer_scale]
    simp [hlt, hrt]

/-- Witness for C7: one step with `lt` held, elapsed time 0.01 s and scale
1 keeps the scale in `[0.5, 2.5]`. -/
theorem scale_rate_and_invariant_witness :
    (0 : ℝ) ≤ 0.01 ∧ (0.5 : ℝ) ≤ 1 ∧ (1 : ℝ) ≤ 2.5 ∧
    (0.5 ≤ (nextPlayer 260 ⟨none, none, none, none⟩ {Btn.lt} 0.01
        ⟨130, 130, 0, 1⟩).scale ∧
     (nextPlayer 260 ⟨none, none, none, none⟩ {Btn.lt} 0.01
        ⟨130, 130, 0, 1⟩).scale ≤ 2.5) :=
  ⟨by norm_num, by norm_num, by norm_num,
   (scale_rate_and_invariant 260 ⟨none, none, none, none⟩ {Btn.lt} 0.01
      ⟨130, 130, 0, 1⟩).2.2.2.1 (by norm_num) (by norm_num) (by norm_num)⟩

-- ## C8

lemma abs_div_le_one (x m : ℝ) (hx : |x| ≤ 1) (hm : 1 ≤ m) :
    |x / m| ≤ 1 := by
  have hm0 : (0 : ℝ) < m := lt_of_lt_of_le one_pos hm
  rw [abs_div, abs_of_pos hm0, div_le_one hm0]
  exact le_trans hx hm

lemma inputVector_abs_le_one (axes : Axes) (pressed : Finset Btn) :
    |(getInputVector axes pressed).x| ≤ 1 ∧
    |(getInputVector axes pressed).y| ≤ 1 := by
  unfold getInputVector
  dsimp only
  exact ⟨abs_div_le_one _ _ (abs_clamp_le_one _) (le_max_left _ _),
    abs_div_le_one _ _ (abs_clamp_le_one _) (le_max_left _ _)⟩

lemma currentSpeed_pos (pressed : Finset Btn) : 0 < currentSpeed pressed := by
  unfold currentSpeed BASE_SPEED
  split <;> norm_num

/-- C8 counterexample: the per-axis position delta of a step is not
bounded by `speed * 0.05` for every frame-timestamp gap — with full-left
stick input and a gap of `-1000000` ms the x-delta is `240000`. -/
theorem delta_bound_cex :
    ¬ |(getInputVector ⟨some (-1), none, none, none⟩ ∅).x * currentSpeed ∅ *
        dtOf 0 1000000| ≤ currentSpeed ∅ * 0.05 := by
  have hv : (getInputVector ⟨some (-1), none, none, none⟩
      (∅ : Finset Btn)).x = -1 := by
    unfold getInputVector
    dsimp only
    norm_num [clamp, hypot, min_def, max_def]
  have hdt : dtOf 0 1000000 = -1000 := by
    norm_num [dtOf, min_def]
  have hsp : currentSpeed (∅ : Finset Btn) = 240 := by
    norm_num [currentSpeed, BASE_SPEED]
  rw [hv, hdt, hsp]
  norm_num

/-- C8 amended: `dt` equals `min((timestamp - lastTimestamp)/1000, 0.05)`
and is thus capped at 50 ms, and for every nonnegative frame-timestamp gap
the per-step position delta on each axis has absolute value at most
`speed * 0.05`, which is at most 30 units. -/
theorem dt_cap_and_delta_bound (timestamp last : ℝ) (axes : Axes)
    (pressed : Finset Btn) :
    dtOf timestamp last = min ((timestamp - last) / 1000) 0.05 ∧
    dtOf timestamp last ≤ 0.05 ∧
    currentSpeed pressed * 0.05 ≤ 30 ∧
    (0 ≤ timestamp - last →
      |(getInputVector axes pressed).x * currentSpeed pressed *
          dtOf timestamp last| ≤ currentSpeed pressed * 0.05 ∧
      |(getInputVector axes pressed).y * currentSpeed pressed *
          dtOf timestamp last| ≤ currentSpeed pressed * 0.05) := by
  refine ⟨rfl, min_le_right _ _, ?_, ?_⟩
  · unfold currentSpeed BASE_SPEED
    split <;> norm_num
  · intro hgap
    have hdt0 : 0 ≤ dtOf timestamp last :=
      le_min (by positivity) (by norm_num)
    have hdt5 : dtOf timestamp last ≤ 0.05 := min_le_right _ _
    have hsp := currentSpeed_pos pressed
    have habs := inputVector_abs_le_one axes pressed
    constructor <;>
      [have hc := habs.1; have hc := habs.2] <;>
      rw [abs_mul, abs_mul, abs_of_pos hsp, abs_of_nonneg hdt0] <;>
      calc _ ≤ 1 * currentSpeed pressed * dtOf timestamp last := by
            exact mul_le_mul_of_nonneg_right
              (mul_le_mul_of_nonneg_right hc (le_of_lt hsp)) hdt0
        _ = currentSpeed pressed * dtOf timestamp last := by ring
        _ ≤ currentSpeed pressed * 0.05 :=
            mul_le_mul_of_nonneg_left hdt5 (le_of_lt hsp)

/-- Witness for the amended C8 at a nonnegative gap of 1000 ms. -/
theorem dt_cap_and_delta_bound_witness :
    (0 : ℝ) ≤ 1000 - 0 ∧
    (|(getInputVector ⟨none, none, none, none⟩ ∅).x * currentSpeed ∅ *
        dtOf 1000 0| ≤ currentSpeed ∅ * 0.05 ∧
     |(getInputVector ⟨none, none, none, none⟩ ∅).y * currentSpeed ∅ *
        dtOf 1000 0| ≤ currentSpeed ∅ * 0.05) :=
  ⟨by norm_num,
   (dt_cap_and_delta_bound 1000 0 ⟨none, none, none, none⟩ ∅).2.2.2
     (by norm_num)⟩

-- ## C9

lemma clamp_eq_self {v lo hi : ℝ} (h1 : lo ≤ v) (h2 : v ≤ hi) :
    clamp v lo hi = v := by
  rw [clamp, max_eq_right h1, min_eq_right h2]

lemma getInputVector_neutral (axes : Axes) (hX : axes.leftX.getD 0 = 0)
    (hY : axes.leftY.getD 0 = 0) :
    getInputVector axes ∅ = ⟨0, 0⟩ := by
  unfold getInputVector
  dsimp only
  rw [hX, hY]
  norm_num [clamp, hypot, min_def, max_def]

/-- C9: with absent or neutral input — `leftX`/`leftY` defaulting to zero
and no pressed buttons — `getInputVector` returns the zero vector and the
step leaves the player's position, rotation, and scale unchanged (position
provided it is within the board bounds, as every step ensures). -/
theorem neutral_input_identity (boardSize : ℝ) (rnd : ℕ → ℝ × ℝ)
    (axes : Axes) (dt : ℝ) (s : GameState)
    (hX : axes.leftX.getD 0 = 0) (hY : axes.leftY.getD 0 = 0)
    (hb : InBounds boardSize s.player) :
    getInputVector axes ∅ = ⟨0, 0⟩ ∧
    (step boardSize rnd axes ∅ dt s).player.x = s.player.x ∧
    (step boardSize rnd axes ∅ dt s).player.y = s.player.y ∧
    (step boardSize rnd axes ∅ dt s).player.rotation = s.player.rotation ∧
    (step boardSize rnd axes ∅ dt s).player.scale = s.player.scale := by
  have hiv := getInputVector_neutral axes hX hY
  have hnp : nextPlayer boardSize axes ∅ dt s.player = s.player := by
    unfold nextPlayer
    dsimp only
    rw [hiv]
    simp [clamp_eq_self hb.1 hb.2.1, clamp_eq_self hb.2.2.1 hb.2.2.2]
  rw [step_player, hnp]
  exact ⟨hiv, rfl, rfl, rfl, rfl⟩

/-- Witness for C9 at absent axes, empty button set, and an in-bounds
state. -/
theorem neutral_input_identity_witness :
    (⟨none, none, none, none⟩ : Axes).leftX.getD 0 = 0 ∧
    (⟨none, none, none, none⟩ : Axes).leftY.getD 0 = 0 ∧
    InBounds 260 (⟨130, 130, 0, 1⟩ : PlayerState) ∧
    getInputVector ⟨none, none, none, none⟩ ∅ = ⟨0, 0⟩ :=
  ⟨rfl, rfl, by norm_num [InBounds, PLAYER_SIZE],
   (neutral_input_identity 260 (fun _ => (0, 0)) ⟨none, none, none, none⟩
      0.02 ⟨⟨130, 130, 0, 1⟩, ⟨44, 44⟩, 0⟩ rfl rfl
      (by norm_num [InBounds, PLAYER_SIZE])).1⟩

-- ## C10

/-- C10: a step in which the collision condition fails leaves the target
and the score unchanged and only replaces the player state by the computed
next player state. -/
theorem no_collision_leaves_target_score (boardSize : ℝ) (rnd : ℕ → ℝ × ℝ)
    (axes : Axes) (pressed : Finset Btn) (dt : ℝ) (s : GameState)
    (h : ¬ distance ⟨(nextPlayer boardSize axes pressed dt s.player).x,
        (nextPlayer boardSize axes pressed dt s.player).y⟩ s.target ≤
      (PLAYER_SIZE * (nextPlayer boardSize axes pressed dt s.player).scale
        + TARGET_SIZE) / 2) :
    (step boardSize rnd axes pressed dt s).target = s.target ∧
    (step boardSize rnd axes pressed dt s).score = s.score ∧
    (step boardSize rnd axes pressed dt s).player =
      nextPlayer boardSize axes pressed dt s.player := by
  unfold step
  dsimp only
  rw [if_neg h]
  exact ⟨rfl, rfl, rfl⟩

/-- Witness for C10: at board size 260 with neutral input, zero elapsed
time, the player at the centre and the target at `(44, 44)`, no collision
occurs and target and score are unchanged. -/
theorem no_collision_leaves_target_score_witness :
    (¬ distance ⟨(nextPlayer 260 ⟨none, none, none, none⟩ ∅ 0
          ⟨130, 130, 0, 1⟩).x,
        (nextPlayer 260 ⟨none, none, none, none⟩ ∅ 0 ⟨130, 130, 0, 1⟩).y⟩
        ⟨44, 44⟩ ≤
      (PLAYER_SIZE * (nextPlayer 260 ⟨none, none, none, none⟩ ∅ 0
          ⟨130, 130, 0, 1⟩).scale + TARGET_SIZE) / 2) ∧
    (step 260 (fun _ => (0, 0)) ⟨none, none, none, none⟩ ∅ 0
        ⟨⟨130, 130, 0, 1⟩, ⟨44, 44⟩, 0⟩).target = ⟨44, 44⟩ := by
  have hiv := getInputVector_neutral ⟨none, none, none, none⟩ rfl rfl
  have hc : ∀ v : ℝ, PLAYER_SIZE / 2 ≤ v → v ≤ 260 - PLAYER_SIZE / 2 →
      clamp v (PLAYER_SIZE / 2) (260 - PLAYER_SIZE / 2) = v :=
    fun v h1 h2 => clamp_eq_self h1 h2
  have hnp : nextPlayer 260 ⟨none, none, none, none⟩ ∅ 0 ⟨130, 130, 0, 1⟩ =
      ⟨130, 130, 0, 1⟩ := by
    unfold nextPlayer
    dsimp only
    rw [hiv]
    simp [hc 130 (by norm_num [PLAYER_SIZE]) (by norm_num [PLAYER_SIZE])]
  have hd : ¬ distance ⟨(130 : ℝ), 130⟩ ⟨44, 44⟩ ≤
      (PLAYER_SIZE * 1 + TARGET_SIZE) / 2 := by
    unfold distance hypot
    rw [not_le]
    norm_num [PLAYER_SIZE, TARGET_SIZE]
    exact (Real.lt_sqrt (by norm_num)).mpr (by norm_num)
  have h : ¬ distance ⟨(nextPlayer 260 ⟨none, none, none, none⟩ ∅ 0
        ⟨130, 130, 0, 1⟩).x,
      (nextPlayer 260 ⟨none, none, none, none⟩ ∅ 0 ⟨130, 130, 0, 1⟩).y⟩
      ⟨44, 44⟩ ≤
      (PLAYER_SIZE * (nextPlayer 260 ⟨none, none, none, none⟩ ∅ 0
        ⟨130, 130, 0, 1⟩).scale + TARGET_SIZE) / 2 := by
    rw [hnp]
    exact hd
  exact ⟨h, (no_collision_leaves_target_score 260 (fun _ => (0, 0))
    ⟨none, none, none, none⟩ ∅ 0 ⟨⟨130, 130, 0, 1⟩, ⟨44, 44⟩, 0⟩ h).1⟩

-- ## C5

/-- A sample stream whose first 20 draws land the candidate exactly on the
player and whose 21st draw lands it at the board corner. -/
noncomputable def cexRnd : ℕ → ℝ × ℝ :=
  fun i => if i < 20 then (1 / 2, 1 / 2) else (0, 0)

/-- The player position used in the C5 counterexample: the centre of a
260-unit board. -/
noncomputable def cexPlayer : Point := ⟨130, 130⟩

lemma cex_sample_lt (i : ℕ) (h : i < 20) :
    randomPoint 260 (cexRnd i) = (⟨130, 130⟩ : Point) := by
  unfold cexRnd randomPoint randomBetween
  rw [if_pos h]
  norm_num [PLAYER_SIZE]

lemma cex_fail (i : ℕ) (h : i < 20) :
    ¬ distance (randomPoint 260 (cexRnd i)) cexPlayer > 100 := by
  rw [cex_sample_lt i h]
  unfold cexPlayer distance hypot
  norm_num

lemma cex_go (fuel : ℕ) :
    ∀ idx, fuel + idx = 20 →
      spawnTargetGo 260 cexPlayer cexRnd fuel idx =
        randomPoint 260 (cexRnd 20) := by
  induction fuel with
  | zero =>
    intro idx h
    unfold spawnTargetGo
    rw [show idx = 20 by omega]
  | succ n ih =>
    intro idx h
    unfold spawnTargetGo
    dsimp only
    rw [if_neg (cex_fail idx (by omega))]
    exact ih (idx + 1) (by omega)

/-- C5 counterexample: with 20 consecutive samples all failing the
distance check, `spawnTarget` does not fall back to the 20th sample — it
returns a fresh, unchecked 21st sample. -/
theorem spawnTarget_fallback_cex :
    randomPoint 260 (cexRnd 0) = randomPoint 260 (cexRnd 19) ∧
    ¬ distance (randomPoint 260 (cexRnd 19)) cexPlayer > 100 ∧
    spawnTarget 260 cexPlayer cexRnd = randomPoint 260 (cexRnd 20) ∧
    spawnTarget 260 cexPlayer cexRnd ≠ randomPoint 260 (cexRnd 19) := by
  have h19 := cex_sample_lt 19 (by norm_num)
  have h0 := cex_sample_lt 0 (by norm_num)
  have hgo : spawnTarget 260 cexPlayer cexRnd = randomPoint 260 (cexRnd 20) := by
    unfold spawnTarget
    exact cex_go 20 0 rfl
  refine ⟨by rw [h0, h19], cex_fail 19 (by norm_num), hgo, ?_⟩
  rw [hgo, h19]
  unfold cexRnd randomPoint randomBetween
  norm_num [PLAYER_SIZE, Point.mk.injEq]

lemma randomBetween_mem (mn mx r : ℝ) (h : mn ≤ mx) (h0 : 0 ≤ r)
    (h1 : r < 1) :
    mn ≤ randomBetween mn mx r ∧ randomBetween mn mx r ≤ mx := by
  unfold randomBetween
  constructor
  · nlinarith
  · nlinarith

lemma randomPoint_mem (boardSize : ℝ) (r : ℝ × ℝ)
    (hB : 2 * PLAYER_SIZE ≤ boardSize)
    (h01 : 0 ≤ r.1 ∧ r.1 < 1 ∧ 0 ≤ r.2 ∧ r.2 < 1) :
    PLAYER_SIZE ≤ (randomPoint boardSize r).x ∧
    (randomPoint boardSize r).x ≤ boardSize - PLAYER_SIZE ∧
    PLAYER_SIZE ≤ (randomPoint boardSize r).y ∧
    (randomPoint boardSize r).y ≤ boardSize - PLAYER_SIZE := by
  have h : PLAYER_SIZE ≤ boardSize - PLAYER_SIZE := by linarith
  obtain ⟨a, b, c, d⟩ := h01
  exact ⟨(randomBetween_mem _ _ _ h a b).1, (randomBetween_mem _ _ _ h a b).2,
    (randomBetween_mem _ _ _ h c d).1, (randomBetween_mem _ _ _ h c d).2⟩

lemma spawnTargetGo_cases (boardSize : ℝ) (player : Point)
    (rnd : ℕ → ℝ × ℝ) :
    ∀ (fuel idx : ℕ),
      (∃ j, spawnTargetGo boardSize player rnd fuel idx =
        randomPoint boardSize (rnd j)) ∧
      (distance (spawnTargetGo boardSize player rnd fuel idx) player > 100 ∨
       ((∀ j, idx ≤ j → j < idx + fuel →
          ¬ distance (randomPoint boardSize (rnd j)) player > 100) ∧
        spawnTargetGo boardSize player rnd fuel idx =
          randomPoint boardSize (rnd (idx + fuel)))) := by
  intro fuel
  induction fuel with
  | zero =>
    intro idx
    refine ⟨⟨idx, by unfold spawnTargetGo; rfl⟩, Or.inr ⟨?_, ?_⟩⟩
    · intro j h1 h2
      omega
    · unfold spawnTargetGo
      rw [Nat.add_zero]
  | succ n ih =>
    intro idx
    by_cases hd : distance (randomPoint boardSize (rnd idx)) player > 100
    · have heq : spawnTargetGo boardSize player rnd (n + 1) idx =
          randomPoint boardSize (rnd idx) := by
        unfold spawnTargetGo
        dsimp only
        rw [if_pos hd]
      exact ⟨⟨idx, heq⟩, Or.inl (by rw [heq]; exact hd)⟩
    · have heq : spawnTargetGo boardSize player rnd (n + 1) idx =
          spawnTargetGo boardSize player rnd n (idx + 1) := by
        conv_lhs => unfold spawnTargetGo
        dsimp only
        rw [if_neg hd]
      obtain ⟨⟨j, hj⟩, hcase⟩ := ih (idx + 1)
      refine ⟨⟨j, by rw [heq]; exact hj⟩, ?_⟩
      rcases hcase with hl | ⟨hall, hfin⟩
      · exact Or.inl (by rw [heq]; exact hl)
      · refine Or.inr ⟨?_, ?_⟩
        · intro k h1 h2
          rcases Nat.eq_or_lt_of_le h1 with rfl | hk
          · exact hd
          · exact hall k hk (by omega)
        · rw [heq, hfin, show idx + 1 + n = idx + (n + 1) by omega]

/-- C5 amended: for every board size at least `2 * PLAYER_SIZE`, every
player position, and every sample stream with coordinates in `[0, 1)`,
`spawnTarget` returns a point with both coordinates in
`[PLAYER_SIZE, boardSize - PLAYER_SIZE]` that is farther than 100 from the
player — unless the 20 checked samples all fail the distance check, in
which case it falls back to a fresh 21st sample (the last point drawn,
itself unchecked). -/
theorem spawnTarget_bounds_and_fallback (boardSize : ℝ) (player : Point)
    (rnd : ℕ → ℝ × ℝ) (hB : 2 * PLAYER_SIZE ≤ boardSize)
    (hr : ∀ i, 0 ≤ (rnd i).1 ∧ (rnd i).1 < 1 ∧ 0 ≤ (rnd i).2 ∧ (rnd i).2 < 1) :
    (PLAYER_SIZE ≤ (spawnTarget boardSize player rnd).x ∧
     (spawnTarget boardSize player rnd).x ≤ boardSize - PLAYER_SIZE ∧
     PLAYER_SIZE ≤ (spawnTarget boardSize player rnd).y ∧
     (spawnTarget boardSize player rnd).y ≤ boardSize - PLAYER_SIZE) ∧
    (distance (spawnTarget boardSize player rnd) player > 100 ∨
     ((∀ i, i < 20 →
        ¬ distance (randomPoint boardSize (rnd i)) player > 100) ∧
      spawnTarget boardSize player rnd = randomPoint boardSize (rnd 20))) := by
  obtain ⟨⟨j, hj⟩, hcase⟩ := spawnTargetGo_cases boardSize player rnd 20 0
  constructor
  · have hmem := randomPoint_mem boardSize (rnd j) hB (hr j)
    unfold spawnTarget
    rw [hj]
    exact hmem
  · unfold spawnTarget
    rcases hcase with hl | ⟨hall, hfin⟩
    · exact Or.inl hl
    · refine Or.inr ⟨fun i hi => hall i (Nat.zero_le i) (by omega), ?_⟩
      rw [hfin]

/-- Witness for the amended C5 at board size 260, player at the centre,
and the all-zero sample stream. -/
theorem spawnTarget_bounds_and_fallback_witness :
    2 * PLAYER_SIZE ≤ (260 : ℝ) ∧
    PLAYER_SIZE ≤ (spawnTarget 260 ⟨130, 130⟩ (fun _ => (0, 0))).x :=
  ⟨by norm_num [PLAYER_SIZE],
   (spawnTarget_bounds_and_fallback 260 ⟨130, 130⟩ (fun _ => (0, 0))
     (by norm_num [PLAYER_SIZE]) (fun i => by norm_num)).1.1⟩

end EarlGamepad
